import Mathlib

/-!
Shallow embedding of the tournament rules engine of `torneo_app`
(`src/lib/database.py` and `src/lib/logic.py`), together with proofs about
its fixture generation, standings computation, classification and knockout
progression.  SQLite tables are modelled as lists of rows; primary-key
joins are modelled with `List.find?`; `random.shuffle` is modelled by
quantifying over an arbitrary permutation of the list being shuffled.
-/

namespace Torneo

/-- A row of the `equipos` table: primary-key id, unique name, zone label. -/
structure Equipo where
  id : Nat
  nombre : String
  zona : String
deriving DecidableEq

/-- A row of the `partidos` table: phase label, the two participant team ids
(home and away), the two scores and the stored winner id (`NULL`, i.e.
`none`, for a draw). -/
structure Partido where
  fase : String
  localId : Nat
  visitanteId : Nat
  golesLocal : Nat
  golesVisitante : Nat
  ganadorId : Option Nat
deriving DecidableEq

/-- A database snapshot: the contents of the `equipos` and `partidos` tables. -/
structure BaseDatos where
  equipos : List Equipo
  partidos : List Partido
deriving DecidableEq

/-- `Database.registrar_partido`: builds the stored match row, deriving the
winner id from the scores: the home side when it scored strictly more, the
away side when it scored strictly more, `NULL` on equal scores. -/
def registrarPartido (fase : String) (localId visitanteId : Nat)
    (golesLocal golesVisitante : Nat) : Partido :=
  { fase := fase, localId := localId, visitanteId := visitanteId,
    golesLocal := golesLocal, golesVisitante := golesVisitante,
    ganadorId :=
      if golesLocal > golesVisitante then some localId
      else if golesVisitante > golesLocal then some visitanteId
      else none }

/-- The winner id `registrar_partido` would derive from the scores of a match
row; a stored row is consistent when its `ganadorId` equals this. -/
def ganadorCalculado (p : Partido) : Option Nat :=
  if p.golesLocal > p.golesVisitante then some p.localId
  else if p.golesVisitante > p.golesLocal then some p.visitanteId
  else none

/-- SQL join of a team id against the `equipos` table; `id` is a primary key,
so at most one row matches and `find?` models the join. -/
def buscarEquipo (db : BaseDatos) (i : Nat) : Option Equipo :=
  db.equipos.find? (fun e => decide (e.id = i))

/-- `SELECT nombre FROM equipos WHERE zona = ?`, in table order. -/
def equiposZona (db : BaseDatos) (zona : String) : List String :=
  (db.equipos.filter (fun e => decide (e.zona = zona))).map (fun e => e.nombre)

/-- Python `tuple(sorted(par))` on a name pair: canonical orientation of an
unordered pairing. -/
def normalizar (par : String × String) : String × String :=
  if par.1 ≤ par.2 then par else (par.2, par.1)

/-- `itertools.combinations(_, 2)`: all pairs whose first component occurs
strictly before the second in the input list, in enumeration order. -/
def combinaciones2 : List String → List (String × String)
  | [] => []
  | x :: xs => xs.map (fun y => (x, y)) ++ combinaciones2 xs

/-- The recorded Group-phase pairings of a zone, as name pairs: the SQL query
of `generar_fixture_zona` joins both participant ids against `equipos` and
keeps the rows whose phase is `'Grupo'` and whose home team is in the zone. -/
def partidosJugadosZona (db : BaseDatos) (zona : String) : List (String × String) :=
  db.partidos.filterMap (fun p =>
    match buscarEquipo db p.localId, buscarEquipo db p.visitanteId with
    | some el, some ev =>
        if p.fase = "Grupo" ∧ el.zona = zona then some (el.nombre, ev.nombre) else none
    | _, _ => none)

/-- `generar_fixture_zona`: every combinatorial pair of the zone's teams whose
normalized form is not among the normalized recorded Group pairings. -/
def generarFixtureZona (db : BaseDatos) (zona : String) : List (String × String) :=
  (combinaciones2 (equiposZona db zona)).filter
    (fun par => decide (normalizar par ∉ (partidosJugadosZona db zona).map normalizar))

/-- A row of the standings table computed by `calcular_tabla_posiciones`. -/
structure Fila where
  nombre : String
  pj : Nat
  pg : Nat
  pe : Nat
  pp : Int
  gf : Nat
  gc : Nat
  dg : Int
  puntos : Nat
deriving DecidableEq

/-- Default standings row, used only as the default value of list lookups. -/
def filaVacia : Fila :=
  { nombre := "", pj := 0, pg := 0, pe := 0, pp := 0, gf := 0, gc := 0, dg := 0, puntos := 0 }

/-- The statistics row `calcular_tabla_posiciones` computes for one team.
Every counting query filters on phase `'Grupo'` and on the team's own id, but
not on the zone of the opposing team. -/
def statsEquipo (db : BaseDatos) (e : Equipo) : Fila :=
  let pj := (db.partidos.filter (fun p =>
    decide ((p.localId = e.id ∨ p.visitanteId = e.id) ∧ p.fase = "Grupo"))).length
  let pg := (db.partidos.filter (fun p =>
    decide (p.ganadorId = some e.id ∧ p.fase = "Grupo"))).length
  let pe := (db.partidos.filter (fun p =>
    decide ((p.localId = e.id ∨ p.visitanteId = e.id) ∧
      p.golesLocal = p.golesVisitante ∧ p.fase = "Grupo"))).length
  let gf := ((db.partidos.filter (fun p =>
      decide (p.localId = e.id ∧ p.fase = "Grupo"))).map (fun p => p.golesLocal)).sum
    + ((db.partidos.filter (fun p =>
      decide (p.visitanteId = e.id ∧ p.fase = "Grupo"))).map (fun p => p.golesVisitante)).sum
  let gc := ((db.partidos.filter (fun p =>
      decide (p.localId = e.id ∧ p.fase = "Grupo"))).map (fun p => p.golesVisitante)).sum
    + ((db.partidos.filter (fun p =>
      decide (p.visitanteId = e.id ∧ p.fase = "Grupo"))).map (fun p => p.golesLocal)).sum
  { nombre := e.nombre, pj := pj, pg := pg, pe := pe,
    pp := (pj : Int) - pg - pe, gf := gf, gc := gc,
    dg := (gf : Int) - gc, puntos := pg * 3 + pe }

/-- The sort key of a standings row: (points, goal difference, goals for). -/
def claveFila (f : Fila) : Nat × Int × Nat := (f.puntos, f.dg, f.gf)

/-- Lexicographic order on sort keys, as Python compares tuples. -/
def claveLe (x y : Nat × Int × Nat) : Prop :=
  x.1 < y.1 ∨ (x.1 = y.1 ∧ (x.2.1 < y.2.1 ∨ (x.2.1 = y.2.1 ∧ x.2.2 ≤ y.2.2)))

instance : DecidableRel claveLe := fun x y => by
  unfold claveLe
  infer_instance

/-- Row order of the final table: descending by key.  Python
`tabla.sort(key=..., reverse=True)` is a stable descending sort, which is
reproduced exactly by a stable sort with respect to this relation. -/
def ordenTabla (a b : Fila) : Prop := claveLe (claveFila b) (claveFila a)

instance : DecidableRel ordenTabla := fun a b => by
  unfold ordenTabla
  infer_instance

instance : IsTotal Fila ordenTabla := by
  constructor
  intro a b
  unfold ordenTabla claveLe
  omega

instance : IsTrans Fila ordenTabla := by
  constructor
  intro a b c hab hbc
  unfold ordenTabla claveLe at *
  omega

/-- `calcular_tabla_posiciones`: one statistics row per team of the zone, then
a stable sort descending by (points, goal difference, goals for). -/
def calcularTablaPosiciones (db : BaseDatos) (zona : String) : List Fila :=
  List.insertionSort ordenTabla
    ((db.equipos.filter (fun e => decide (e.zona = zona))).map (statsEquipo db))

/-- The tournament configuration of `config.py`: the list of zone names and
the number of teams per zone that advance to the knockout stage. -/
structure Configuracion where
  zonas : List String
  clasificanPorZona : Nat

/-- The top `k` names of a zone's standings (`tabla[:k]`). -/
def clasificados (db : BaseDatos) (k : Nat) (zona : String) : List String :=
  ((calcularTablaPosiciones db zona).take k).map (fun f => f.nombre)

/-- The cross-seeding loop of `generar_enfrentamientos_iniciales`: pair rank
`i` of the first qualifier list against rank `k - 1 - i` of the second.  The
function is only ever applied with both lists of length `k`, so the lookup
defaults are never reached. -/
def cruces (ea eb : List String) (k : Nat) : List (String × String) :=
  (List.range k).map (fun i => (ea.getD i "", eb.getD (k - 1 - i) ""))

/-- `generar_enfrentamientos_iniciales`: `None` as soon as some configured
zone's standings are shorter than the qualifier count; otherwise the empty
list when the number of configured zones is not two; otherwise the
cross-seeded pairings of the two zones' qualifier lists. -/
def generarEnfrentamientosIniciales (db : BaseDatos) (cfg : Configuracion) :
    Option (List (String × String)) :=
  if ∀ z ∈ cfg.zonas, cfg.clasificanPorZona ≤ (calcularTablaPosiciones db z).length then
    match cfg.zonas with
    | [za, zb] =>
        some (cruces (clasificados db cfg.clasificanPorZona za)
                     (clasificados db cfg.clasificanPorZona zb)
                     cfg.clasificanPorZona)
    | _ => some []
  else none

/-- `obtener_partidos_fase`: the match rows of a phase whose two participant
ids resolve against `equipos` (inner joins). -/
def partidosFase (db : BaseDatos) (fase : String) : List Partido :=
  db.partidos.filter (fun p =>
    decide (p.fase = fase) && (buscarEquipo db p.localId).isSome
      && (buscarEquipo db p.visitanteId).isSome)

/-- `obtener_ganadores`, before the shuffle: for each match of the phase, the
per-match winner query joins the stored winner id against `equipos` and yields
a name only when that join succeeds; matches with a `NULL` or dangling winner
id contribute nothing.  (`random.shuffle` is applied afterwards and is
modelled by quantifying over permutations of this list.) -/
def ganadoresFase (db : BaseDatos) (fase : String) : List String :=
  (partidosFase db fase).filterMap (fun p =>
    match p.ganadorId with
    | some g => (buscarEquipo db g).map (fun e => e.nombre)
    | none => none)

/-- The consecutive-pairing loop of `generar_enfrentamientos`: indices
(0,1), (2,3), …; a trailing unpaired element produces no pair. -/
def emparejarConsecutivos : List String → List (String × String)
  | a :: b :: resto => (a, b) :: emparejarConsecutivos resto
  | _ => []

/-- `generar_enfrentamientos`, applied to the already shuffled winner list:
fewer than two winners yield the empty list, otherwise consecutive pairs. -/
def generarEnfrentamientos (ganadores : List String) : List (String × String) :=
  if ganadores.length < 2 then [] else emparejarConsecutivos ganadores

/-- The teams appearing across a pairing list, in order. -/
def paresAEquipos : List (String × String) → List String
  | [] => []
  | (a, b) :: resto => a :: b :: paresAEquipos resto

/-- `_mostrar_campeon`: the champion is the first element of the winner list
of the round `"Final"` when that list is nonempty, and absent otherwise. -/
def campeon (ganadoresFinal : List String) : Option String :=
  ganadoresFinal.head?

/-- A team id belongs to a zone when some `equipos` row carries that id and
that zone. -/
def enZona (db : BaseDatos) (zona : String) (i : Nat) : Prop :=
  ∃ e ∈ db.equipos, e.id = i ∧ e.zona = zona

instance (db : BaseDatos) (zona : String) (i : Nat) : Decidable (enZona db zona i) := by
  unfold enZona
  infer_instance

/-- A Group-phase match between two distinct teams of the zone. -/
def partidoDeZona (db : BaseDatos) (zona : String) (p : Partido) : Prop :=
  p.fase = "Grupo" ∧ enZona db zona p.localId ∧ enZona db zona p.visitanteId ∧
    p.localId ≠ p.visitanteId

instance (db : BaseDatos) (zona : String) (p : Partido) : Decidable (partidoDeZona db zona p) := by
  unfold partidoDeZona
  infer_instance

/-! ## Auxiliary lemmas -/

/-- Flattening the consecutive pairing recovers the input list when its length
is even, and the input without its trailing element when it is odd. -/
theorem paresAEquipos_emparejar (gs : List String) :
    paresAEquipos (emparejarConsecutivos gs) =
      if gs.length % 2 = 0 then gs else gs.dropLast := by
  induction gs using emparejarConsecutivos.induct with
  | case1 a b resto ih =>
      simp only [emparejarConsecutivos, paresAEquipos, ih]
      rcases resto with _ | ⟨c, l⟩
      · simp
      · simp only [List.length_cons]
        by_cases h : (l.length + 1) % 2 = 0
        · rw [if_pos h, if_pos (show (l.length + 1 + 1 + 1) % 2 = 0 by omega)]
        · rw [if_neg h, if_neg (show ¬(l.length + 1 + 1 + 1) % 2 = 0 by omega)]
          simp [List.dropLast_cons₂]
  | case2 gs h1 =>
      rcases gs with _ | ⟨a, _ | ⟨b, l⟩⟩
      · simp [emparejarConsecutivos, paresAEquipos]
      · simp [emparejarConsecutivos, paresAEquipos, List.dropLast]
      · exact absurd rfl (h1 a b l)

/-- Twice the number of 2-combinations, plus the list length, is the square of
the list length. -/
theorem combinaciones2_length_sq (l : List String) :
    (combinaciones2 l).length * 2 + l.length = l.length * l.length := by
  induction l with
  | nil => simp [combinaciones2]
  | cons x xs ih =>
      simp only [combinaciones2, List.length_append, List.length_map, List.length_cons]
      have h : (xs.length + 1) * (xs.length + 1) =
          xs.length * xs.length + 2 * xs.length + 1 := by ring
      omega

/-- The number of 2-combinations of an `n`-element list is `n * (n - 1) / 2`. -/
theorem combinaciones2_length (l : List String) :
    2 * (combinaciones2 l).length = l.length * (l.length - 1) := by
  have h := combinaciones2_length_sq l
  rcases hn : l.length with _ | k
  · rw [hn] at h
    omega
  · rw [hn] at h
    simp only [Nat.add_sub_cancel]
    have h2 : (k + 1) * (k + 1) = (k + 1) * k + (k + 1) := by ring
    omega

/-- Pure list fact behind the treatment of drawn knockout matches: elements on
which `G` yields nothing may be dropped (via the extra filter `H`) without
changing a `filter`-then-`filterMap` pipeline. -/
theorem filterMap_filter_drop {α β : Type} (F H : α → Bool) (G : α → Option β)
    (ps : List α) (h : ∀ p ∈ ps, H p = false → G p = none) :
    (ps.filter F).filterMap G = ((ps.filter H).filter F).filterMap G := by
  induction ps with
  | nil => rfl
  | cons p ps ih =>
      have hp := h p (List.mem_cons_self p ps)
      have ih2 := ih (fun q hq => h q (List.mem_cons_of_mem p hq))
      by_cases hH : H p = true
      · by_cases hF : F p = true
        · simp [List.filter_cons, hH, hF, List.filterMap_cons, ih2]
        · simp [List.filter_cons, hH, hF, ih2]
      · have hG : G p = none := hp (by revert hH; cases H p <;> simp)
        by_cases hF : F p = true
        · simp [List.filter_cons, hH, hF, List.filterMap_cons, hG, ih2]
        · simp [List.filter_cons, hH, hF, ih2]

/-! ## Claim theorems -/

/-- C8: for a match created by `registrar_partido`, the stored winner is the
home side exactly when its score is strictly higher, the away side exactly
when its score is strictly higher, and absent exactly when the scores are
equal. -/
theorem registrar_partido_ganador (fase : String) (a b ga gb : Nat) :
    ((registrarPartido fase a b ga gb).ganadorId =
      if gb < ga then some a else if ga < gb then some b else none) ∧
    ((registrarPartido fase a b ga gb).ganadorId = none ↔ ga = gb) ∧
    (gb < ga → (registrarPartido fase a b ga gb).ganadorId = some a) ∧
    (ga < gb → (registrarPartido fase a b ga gb).ganadorId = some b) := by
  unfold registrarPartido
  refine ⟨rfl, ?_, ?_, ?_⟩
  · simp only []
    split_ifs <;> simp <;> omega
  · intro h
    simp only []
    rw [if_pos h]
  · intro h
    simp only []
    rw [if_neg (by omega), if_pos h]

/-- Witness for C8 at a concrete match: home side 1 beats away side 2 by
2 goals to 0, so the stored winner is team 1 and the match is not a draw. -/
theorem registrar_partido_ganador_testigo :
    (registrarPartido "Grupo" 1 2 2 0).ganadorId = some 1 ∧
    ((registrarPartido "Grupo" 1 2 2 0).ganadorId = none ↔ (2 : Nat) = 0) :=
  ⟨(registrar_partido_ganador "Grupo" 1 2 2 0).2.2.1 (by omega),
   (registrar_partido_ganador "Grupo" 1 2 2 0).2.1⟩

/-- Database with a single recorded knockout match that ended in a draw. -/
def baseEmpateNocaut : BaseDatos :=
  { equipos := [⟨1, "X", "A"⟩, ⟨2, "Y", "A"⟩],
    partidos := [registrarPartido "Cuartos" 1 2 1 1] }

/-- C6 counterexample: a drawn knockout match is among the recorded matches of
its round, yet winner resolution returns the plain empty winner list — the
match is silently skipped and no error value of any kind is produced. -/
theorem ganadores_empate_contraejemplo :
    partidosFase baseEmpateNocaut "Cuartos" = [registrarPartido "Cuartos" 1 2 1 1] ∧
    ganadoresFase baseEmpateNocaut "Cuartos" = [] := by
  constructor
  · decide
  · decide

/-- C6 amended: during winner resolution, recorded matches of the round with
equal scores are silently skipped — removing them from the database does not
change the winner list, and no error is reported (the result type of
`obtener_ganadores` has no error variant at all).  The hypothesis states that
stored winner ids are the ones `registrar_partido` derives from the scores. -/
theorem ganadores_omite_empates (db : BaseDatos) (fase : String)
    (hgan : ∀ p ∈ db.partidos, p.ganadorId = ganadorCalculado p) :
    ganadoresFase db fase =
      ganadoresFase
        { equipos := db.equipos,
          partidos := db.partidos.filter (fun p =>
            !(decide (p.fase = fase) && decide (p.golesLocal = p.golesVisitante))) } fase := by
  have hdrop : ∀ p ∈ db.partidos,
      (!(decide (p.fase = fase) && decide (p.golesLocal = p.golesVisitante))) = false →
      (match p.ganadorId with
       | some g => (buscarEquipo db g).map (fun e => e.nombre)
       | none => none) = none := by
    intro p hp hfalse
    have h1 : p.fase = fase ∧ p.golesLocal = p.golesVisitante := by
      simpa using hfalse
    have h2 : p.ganadorId = none := by
      rw [hgan p hp]
      unfold ganadorCalculado
      rw [h1.2]
      simp
    rw [h2]
  unfold ganadoresFase partidosFase
  exact filterMap_filter_drop _ _ _ db.partidos hdrop

/-- Database with one decisive and one drawn semifinal match. -/
def baseSemis : BaseDatos :=
  { equipos := [⟨1, "X", "A"⟩, ⟨2, "Y", "A"⟩],
    partidos := [registrarPartido "Semifinal" 1 2 2 0, registrarPartido "Semifinal" 1 2 1 1] }

/-- Witness for the amended C6 at a concrete database. -/
theorem ganadores_omite_empates_testigo :
    ganadoresFase baseSemis "Semifinal" =
      ganadoresFase
        { equipos := baseSemis.equipos,
          partidos := baseSemis.partidos.filter (fun p =>
            !(decide (p.fase = "Semifinal") && decide (p.golesLocal = p.golesVisitante))) }
        "Semifinal" :=
  ganadores_omite_empates baseSemis "Semifinal" (by decide)

/-- C5 counterexample: with three configured zones (and qualifier count 0, so
every zone trivially has enough standings rows) the function returns `some []`
— exactly the same value as an ordinary empty pairing list, as produced for a
two-zone configuration with qualifier count 0.  The unsupported-topology case
is therefore reported as a silent default, not as a distinct error value. -/
theorem clasificacion_topologia_contraejemplo :
    generarEnfrentamientosIniciales ⟨[], []⟩ ⟨["A", "B", "C"], 0⟩ = some [] ∧
    generarEnfrentamientosIniciales ⟨[], []⟩ ⟨["A", "B"], 0⟩ =
      generarEnfrentamientosIniciales ⟨[], []⟩ ⟨["A", "B", "C"], 0⟩ := by
  constructor
  · decide
  · decide

/-- C5 amended: when some configured zone's standings are shorter than the
qualifier count the function returns `none` (which is neither an empty nor a
partial pairing list); when all zones are long enough but the number of
configured zones is not two it returns `some []` — a value distinct from
`none` but equal to the empty pairing list, i.e. not a dedicated error
value. -/
theorem clasificacion_seniales (db : BaseDatos) (cfg : Configuracion) :
    (cfg.zonas.all (fun z =>
        decide (cfg.clasificanPorZona ≤ (calcularTablaPosiciones db z).length)) = false →
      generarEnfrentamientosIniciales db cfg = none) ∧
    (cfg.zonas.all (fun z =>
        decide (cfg.clasificanPorZona ≤ (calcularTablaPosiciones db z).length)) = true →
      cfg.zonas.length ≠ 2 → generarEnfrentamientosIniciales db cfg = some []) := by
  obtain ⟨zonas, K⟩ := cfg
  constructor
  · intro hall
    unfold generarEnfrentamientosIniciales
    rw [if_neg]
    intro hforall
    have htrue : zonas.all (fun z =>
        decide (K ≤ (calcularTablaPosiciones db z).length)) = true :=
      List.all_eq_true.mpr (fun z hz => decide_eq_true (hforall z hz))
    rw [htrue] at hall
    exact absurd hall (by simp)
  · intro hall hlen
    have hforall : ∀ z ∈ zonas, K ≤ (calcularTablaPosiciones db z).length := fun z hz =>
      of_decide_eq_true (List.all_eq_true.mp hall z hz)
    rcases zonas with _ | ⟨a, _ | ⟨b, _ | ⟨c, l⟩⟩⟩
    · unfold generarEnfrentamientosIniciales
      rw [if_pos hforall]
    · unfold generarEnfrentamientosIniciales
      rw [if_pos hforall]
    · simp at hlen
    · unfold generarEnfrentamientosIniciales
      rw [if_pos hforall]

/-- Witness for the amended C5: a one-zone configuration with qualifier count
1 over an empty database returns `none`. -/
theorem clasificacion_seniales_testigo :
    generarEnfrentamientosIniciales ⟨[], []⟩ ⟨["A"], 1⟩ = none :=
  (clasificacion_seniales ⟨[], []⟩ ⟨["A"], 1⟩).1 (by decide)

/-- The phase query of `obtener_partidos_fase`, split into its phase filter
followed by its two participant joins. -/
theorem partidosFase_filtro (db : BaseDatos) (fase : String) :
    partidosFase db fase =
      (db.partidos.filter (fun p => decide (p.fase = fase))).filter
        (fun p => (buscarEquipo db p.localId).isSome && (buscarEquipo db p.visitanteId).isSome) := by
  unfold partidosFase
  rw [List.filter_filter]
  apply List.filter_congr
  intro p _
  cases h1 : decide (p.fase = fase) <;>
    cases h2 : (buscarEquipo db p.localId).isSome <;>
      cases h3 : (buscarEquipo db p.visitanteId).isSome <;> simp [h1, h2, h3]

/-- C9: if the round `"Final"` has exactly one recorded match and its stored
winner id resolves to a team, the champion lookup returns that team's name;
if the round has no recorded match, or its only recorded match has no stored
winner, no champion is produced.  `gs` is the shuffled winner list of the
final round. -/
theorem campeon_final_correcto (db : BaseDatos) (gs : List String) (p : Partido)
    (w : Nat) (e : Equipo) (hperm : gs.Perm (ganadoresFase db "Final")) :
    (db.partidos.filter (fun q => decide (q.fase = "Final")) = [p] →
      (buscarEquipo db p.localId).isSome = true →
      (buscarEquipo db p.visitanteId).isSome = true →
      p.ganadorId = some w → buscarEquipo db w = some e →
      campeon gs = some e.nombre) ∧
    (db.partidos.filter (fun q => decide (q.fase = "Final")) = [] →
      campeon gs = none) ∧
    (db.partidos.filter (fun q => decide (q.fase = "Final")) = [p] →
      p.ganadorId = none → campeon gs = none) := by
  refine ⟨?_, ?_, ?_⟩
  · intro hF hl hv hw he
    have hpf : partidosFase db "Final" = [p] := by
      rw [partidosFase_filtro, hF]
      simp [List.filter_cons, hl, hv]
    have hg : ganadoresFase db "Final" = [e.nombre] := by
      unfold ganadoresFase
      rw [hpf]
      simp [List.filterMap_cons, hw, he]
    rw [hg] at hperm
    rw [campeon, List.perm_singleton.mp hperm]
    rfl
  · intro hF
    have hg : ganadoresFase db "Final" = [] := by
      unfold ganadoresFase
      rw [partidosFase_filtro, hF]
      rfl
    rw [hg] at hperm
    rw [campeon, List.perm_nil.mp hperm]
    rfl
  · intro hF hw
    have hg : ganadoresFase db "Final" = [] := by
      unfold ganadoresFase
      rw [partidosFase_filtro, hF]
      by_cases hj : ((buscarEquipo db p.localId).isSome
          && (buscarEquipo db p.visitanteId).isSome) = true <;>
        simp [List.filter_cons, hj, List.filterMap_cons, hw]
    rw [hg] at hperm
    rw [campeon, List.perm_nil.mp hperm]
    rfl

/-- Database whose final round has exactly one recorded match, won by team 1. -/
def baseFinal : BaseDatos :=
  { equipos := [⟨1, "X", "A"⟩, ⟨2, "Y", "B"⟩],
    partidos := [registrarPartido "Final" 1 2 3 1] }

/-- Witness for C9: the champion of the concrete final is team `"X"`. -/
theorem campeon_final_testigo : campeon ["X"] = some "X" :=
  (campeon_final_correcto baseFinal ["X"] (registrarPartido "Final" 1 2 3 1) 1
    ⟨1, "X", "A"⟩ (by decide)).1 (by decide) (by decide) (by decide) (by decide) (by decide)

/-- Position `j` of the qualifier list is the name of row `j` of the
standings, for `j` below the qualifier count when the standings are long
enough. -/
theorem clasificados_getD (db : BaseDatos) (k : Nat) (zona : String) (j : Nat)
    (hj : j < k) (hk : k ≤ (calcularTablaPosiciones db zona).length) :
    (clasificados db k zona).getD j "" =
      ((calcularTablaPosiciones db zona).getD j filaVacia).nombre := by
  unfold clasificados
  have hjl : j < (calcularTablaPosiciones db zona).length := lt_of_lt_of_le hj hk
  have hlen : j < (((calcularTablaPosiciones db zona).take k).map (fun f => f.nombre)).length := by
    simp only [List.length_map, List.length_take]
    omega
  rw [List.getD_eq_getElem _ _ hlen, List.getElem_map, List.getD_eq_getElem _ _ hjl]
  congr 1
  have h1 : ((calcularTablaPosiciones db zona).take k)[j]? =
      (calcularTablaPosiciones db zona)[j]? := List.getElem?_take_of_lt hj
  rw [List.getElem?_eq_getElem (by simp only [List.length_take]; omega),
    List.getElem?_eq_getElem hjl] at h1
  exact Option.some.inj h1

/-- C1: with exactly two configured zones whose standings both have at least
`K` rows (`K` the configured qualifier count), cross-seeding succeeds with
exactly `K` pairings, and the `i`-th pairing joins the `i`-th row of the
first zone's standings with the `(K-1-i)`-th row of the second zone's
standings. -/
theorem cruce_inicial_correcto (db : BaseDatos) (cfg : Configuracion)
    (za zb : String) (i : Nat)
    (hz : cfg.zonas = [za, zb])
    (ha : cfg.clasificanPorZona ≤ (calcularTablaPosiciones db za).length)
    (hb : cfg.clasificanPorZona ≤ (calcularTablaPosiciones db zb).length)
    (hi : i < cfg.clasificanPorZona) :
    (generarEnfrentamientosIniciales db cfg).isSome = true ∧
    ((generarEnfrentamientosIniciales db cfg).getD []).length = cfg.clasificanPorZona ∧
    ((generarEnfrentamientosIniciales db cfg).getD []).getD i ("", "") =
      (((calcularTablaPosiciones db za).getD i filaVacia).nombre,
       ((calcularTablaPosiciones db zb).getD
          (cfg.clasificanPorZona - 1 - i) filaVacia).nombre) := by
  obtain ⟨zonas, K⟩ := cfg
  dsimp only at hz ha hb hi ⊢
  subst hz
  have hcond : ∀ z ∈ [za, zb], K ≤ (calcularTablaPosiciones db z).length := by
    intro z hzm
    rcases List.mem_cons.mp hzm with rfl | hzm2
    · exact ha
    · rcases List.mem_cons.mp hzm2 with rfl | hzm3
      · exact hb
      · exact absurd hzm3 (List.not_mem_nil z)
  have hres : generarEnfrentamientosIniciales db ⟨[za, zb], K⟩ =
      some (cruces (clasificados db K za) (clasificados db K zb) K) := by
    unfold generarEnfrentamientosIniciales
    rw [if_pos hcond]
  rw [hres]
  refine ⟨rfl, ?_, ?_⟩
  · simp [cruces]
  · have hgetD : (cruces (clasificados db K za) (clasificados db K zb) K).getD i ("", "") =
        ((clasificados db K za).getD i "", (clasificados db K zb).getD (K - 1 - i) "") := by
      unfold cruces
      rw [List.getD_eq_getElem _ _ (by simp only [List.length_map, List.length_range]; omega)]
      rw [List.getElem_map]
      congr 2 <;> rw [List.getElem_range]
    rw [Option.getD_some, hgetD, clasificados_getD db K za i hi ha,
      clasificados_getD db K zb (K - 1 - i) (by omega) hb]

/-- Two teams, one per zone, no recorded matches. -/
def baseCruce : BaseDatos := ⟨[⟨1, "P", "A"⟩, ⟨2, "Q", "B"⟩], []⟩

/-- Witness for C1 with qualifier count 1 over two one-team zones. -/
theorem cruce_inicial_testigo :
    (generarEnfrentamientosIniciales baseCruce ⟨["A", "B"], 1⟩).isSome = true ∧
    ((generarEnfrentamientosIniciales baseCruce ⟨["A", "B"], 1⟩).getD []).length = 1 ∧
    ((generarEnfrentamientosIniciales baseCruce ⟨["A", "B"], 1⟩).getD []).getD 0 ("", "") =
      (((calcularTablaPosiciones baseCruce "A").getD 0 filaVacia).nombre,
       ((calcularTablaPosiciones baseCruce "B").getD 0 filaVacia).nombre) :=
  cruce_inicial_correcto baseCruce ⟨["A", "B"], 1⟩ "A" "B" 0 rfl
    (by decide) (by decide) (by decide)

/-- C3: for every database and zone, the standings table is sorted descending
by the key (points, goal difference, goals for) in that priority, and — the
claim's "in particular" — its points column is pairwise descending, so a row
with strictly more points than another always appears strictly above it
(were it at or below, pairwise descent would force its points to be at most
the other row's). -/
theorem tabla_ordenada_correcta (db : BaseDatos) (zona : String) :
    (calcularTablaPosiciones db zona).Sorted ordenTabla ∧
    (calcularTablaPosiciones db zona).Sorted (fun a b => b.puntos ≤ a.puntos) := by
  have hsort : (calcularTablaPosiciones db zona).Sorted ordenTabla := by
    unfold calcularTablaPosiciones
    exact List.sorted_insertionSort ordenTabla _
  refine ⟨hsort, List.Pairwise.imp ?_ hsort⟩
  intro a b hab
  unfold ordenTabla claveLe claveFila at hab
  dsimp only at hab
  omega

/-- Two teams in zone A, one decisive Group match: the winner has 3 points,
the loser 0. -/
def baseOrden : BaseDatos :=
  ⟨[⟨1, "X", "A"⟩, ⟨2, "Y", "A"⟩], [registrarPartido "Grupo" 1 2 2 0]⟩

/-- Witness for C3 at a concrete database: its standings are sorted by the
key and pairwise descending on points. -/
theorem tabla_ordenada_testigo :
    (calcularTablaPosiciones baseOrden "A").Sorted ordenTabla ∧
    (calcularTablaPosiciones baseOrden "A").Sorted (fun a b => b.puntos ≤ a.puntos) :=
  tabla_ordenada_correcta baseOrden "A"

/-- C4: pairing a completed round's (shuffled) winners consecutively uses
every winner exactly once when the winner count is even; when it is odd the
trailing unpaired winner is dropped and (for pairwise-distinct winners)
exactly one winner is absent from the pairings; with fewer than 2 winners the
pairing list is empty. -/
theorem progresion_conserva_ganadores (db : BaseDatos) (fase : String)
    (gs : List String) (hperm : gs.Perm (ganadoresFase db fase)) :
    (gs.length % 2 = 0 →
      (paresAEquipos (generarEnfrentamientos gs)).Perm (ganadoresFase db fase)) ∧
    (gs.length % 2 = 1 →
      paresAEquipos (generarEnfrentamientos gs) = gs.dropLast) ∧
    ((ganadoresFase db fase).length < 2 → generarEnfrentamientos gs = []) ∧
    (gs.length % 2 = 1 → (ganadoresFase db fase).Nodup →
      ((ganadoresFase db fase).filter
        (fun t => decide (t ∉ paresAEquipos (generarEnfrentamientos gs)))).length = 1) := by
  have hlen : gs.length = (ganadoresFase db fase).length := hperm.length_eq
  have hpar_odd : gs.length % 2 = 1 →
      paresAEquipos (generarEnfrentamientos gs) = gs.dropLast := by
    intro ho
    by_cases hsmall : gs.length < 2
    · have h1 : gs.length = 1 := by omega
      obtain ⟨x, hx⟩ := List.length_eq_one.mp h1
      subst hx
      simp [generarEnfrentamientos, paresAEquipos, List.dropLast]
    · simp only [generarEnfrentamientos, if_neg hsmall]
      rw [paresAEquipos_emparejar, if_neg (by omega)]
  refine ⟨?_, hpar_odd, ?_, ?_⟩
  · intro he
    by_cases hsmall : gs.length < 2
    · have h0 : gs.length = 0 := by omega
      have hg : gs = [] := List.length_eq_zero.mp h0
      subst hg
      simpa [generarEnfrentamientos, paresAEquipos] using hperm
    · simp only [generarEnfrentamientos, if_neg hsmall]
      rw [paresAEquipos_emparejar, if_pos he]
      exact hperm
  · intro hw
    have : gs.length < 2 := by omega
    simp [generarEnfrentamientos, this]
  · intro ho hnd
    have hgnd : gs.Nodup := hperm.nodup_iff.mpr hnd
    have hne : gs ≠ [] := by
      intro h
      rw [h] at ho
      simp at ho
    rw [hpar_odd ho]
    rw [← (hperm.filter (fun t => decide (t ∉ gs.dropLast))).length_eq]
    have hsplit := List.dropLast_append_getLast hne
    have hfil : gs.filter (fun t => decide (t ∉ gs.dropLast)) = [gs.getLast hne] := by
      set d := gs.dropLast with hd
      conv_lhs => rw [← hsplit]
      rw [List.filter_append]
      have h1 : d.filter (fun t => decide (t ∉ d)) = [] := by
        rw [List.filter_eq_nil_iff]
        intro a ha
        simp [ha]
      have hlast : gs.getLast hne ∉ d := by
        have hnd2 := hgnd
        rw [← hsplit, List.nodup_append] at hnd2
        exact fun hmem => hnd2.2.2 hmem (List.mem_singleton.mpr rfl)
      have h2 : [gs.getLast hne].filter (fun t => decide (t ∉ d)) = [gs.getLast hne] := by
        simp [hlast]
      rw [h1, h2]
      rfl
    rw [hfil]
    rfl

/-- Six teams and three decisive knockout matches with distinct winners. -/
def baseOctavos : BaseDatos :=
  { equipos := [⟨1, "E1", "A"⟩, ⟨2, "E2", "A"⟩, ⟨3, "E3", "A"⟩,
                ⟨4, "E4", "A"⟩, ⟨5, "E5", "A"⟩, ⟨6, "E6", "A"⟩],
    partidos := [registrarPartido "Octavos" 1 2 1 0,
                 registrarPartido "Octavos" 3 4 2 1,
                 registrarPartido "Octavos" 5 6 3 0] }

/-- Witness for C4: with three distinct winners and a concrete shuffle,
exactly one winner is absent from the generated pairings. -/
theorem progresion_conserva_testigo :
    ((ganadoresFase baseOctavos "Octavos").filter
      (fun t => decide (t ∉ paresAEquipos (generarEnfrentamientos ["E3", "E1", "E5"])))).length
      = 1 :=
  (progresion_conserva_ganadores baseOctavos "Octavos" ["E3", "E1", "E5"]
    (by decide)).2.2.2 (by decide) (by decide)

/-- C10: when the winners of the completed round are pairwise distinct, no
team appears twice across the generated pairings (in particular the two teams
of each pairing differ). -/
theorem emparejamientos_sin_repetidos (db : BaseDatos) (fase : String)
    (gs : List String) (hperm : gs.Perm (ganadoresFase db fase))
    (hnd : (ganadoresFase db fase).Nodup) :
    (paresAEquipos (generarEnfrentamientos gs)).Nodup := by
  have hgnd : gs.Nodup := hperm.nodup_iff.mpr hnd
  by_cases hsmall : gs.length < 2
  · simp [generarEnfrentamientos, hsmall, paresAEquipos]
  · simp only [generarEnfrentamientos, if_neg hsmall]
    rw [paresAEquipos_emparejar]
    by_cases he : gs.length % 2 = 0
    · rw [if_pos he]
      exact hgnd
    · rw [if_neg he]
      exact (List.dropLast_sublist gs).nodup hgnd

/-- Witness for C10 at the concrete three-winner round. -/
theorem emparejamientos_sin_repetidos_testigo :
    (paresAEquipos (generarEnfrentamientos ["E3", "E1", "E5"])).Nodup :=
  emparejamientos_sin_repetidos baseOctavos "Octavos" ["E3", "E1", "E5"]
    (by decide) (by decide)

/-- Normalization of a pairing is orientation-invariant. -/
theorem normalizar_swap (a b : String) : normalizar (b, a) = normalizar (a, b) := by
  unfold normalizar
  rcases lt_trichotomy a b with h | rfl | h
  · rw [if_neg (not_le.mpr h), if_pos h.le]
  · simp
  · rw [if_pos h.le, if_neg (not_le.mpr h)]

/-- Two pairings with the same normalization are equal or swapped. -/
theorem normalizar_eq_cases (p q : String × String) (h : normalizar p = normalizar q) :
    (p.1 = q.1 ∧ p.2 = q.2) ∨ (p.1 = q.2 ∧ p.2 = q.1) := by
  rcases p with ⟨a, b⟩
  rcases q with ⟨c, d⟩
  unfold normalizar at h
  dsimp only at h ⊢
  split_ifs at h <;> simp only [Prod.ext_iff] at h <;> tauto

/-- Both components of a 2-combination belong to the underlying list. -/
theorem mem_of_combinaciones2 (l : List String) (u v : String)
    (h : (u, v) ∈ combinaciones2 l) : u ∈ l ∧ v ∈ l := by
  induction l with
  | nil => simp [combinaciones2] at h
  | cons x xs ih =>
      simp only [combinaciones2, List.mem_append, List.mem_map] at h
      rcases h with ⟨y, hy, heq⟩ | h2
      · injection heq with h1 h2
        subst h1
        subst h2
        exact ⟨List.mem_cons_self _ _, List.mem_cons_of_mem _ hy⟩
      · obtain ⟨h1, h2⟩ := ih h2
        exact ⟨List.mem_cons_of_mem _ h1, List.mem_cons_of_mem _ h2⟩

/-- Every unordered pair of distinct members appears in the 2-combinations in
one of its two orientations. -/
theorem mem_combinaciones2 (l : List String) (a b : String) (hnd : l.Nodup)
    (ha : a ∈ l) (hb : b ∈ l) (hne : a ≠ b) :
    (a, b) ∈ combinaciones2 l ∨ (b, a) ∈ combinaciones2 l := by
  induction l with
  | nil => cases ha
  | cons x xs ih =>
      rw [List.nodup_cons] at hnd
      rcases List.mem_cons.mp ha with rfl | ha2
      · have hb2 : b ∈ xs := by
          rcases List.mem_cons.mp hb with h | h
          · exact absurd h.symm hne
          · exact h
        left
        simp only [combinaciones2, List.mem_append]
        exact Or.inl (List.mem_map.mpr ⟨b, hb2, rfl⟩)
      · rcases List.mem_cons.mp hb with rfl | hb2
        · right
          simp only [combinaciones2, List.mem_append]
          exact Or.inl (List.mem_map.mpr ⟨a, ha2, rfl⟩)
        · rcases ih hnd.2 ha2 hb2 with h | h
          · left
            simp only [combinaciones2, List.mem_append]
            exact Or.inr h
          · right
            simp only [combinaciones2, List.mem_append]
            exact Or.inr h

/-- Over a duplicate-free team list, distinct 2-combinations have distinct
normalizations: each unordered pair occurs at most once. -/
theorem nodup_normalizar_combinaciones2 (l : List String) (hnd : l.Nodup) :
    ((combinaciones2 l).map normalizar).Nodup := by
  induction l with
  | nil => simp [combinaciones2]
  | cons x xs ih =>
      rw [List.nodup_cons] at hnd
      simp only [combinaciones2, List.map_append, List.map_map]
      rw [List.nodup_append]
      refine ⟨?_, ih hnd.2, ?_⟩
      · apply List.Nodup.map_on ?_ hnd.2
        intro y1 h1 y2 h2 heq
        simp only [Function.comp] at heq
        rcases normalizar_eq_cases (x, y1) (x, y2) heq with ⟨e1, e2⟩ | ⟨e1, e2⟩
        · exact e2
        · have e1b : x = y2 := e1
          have e2b : y1 = x := e2
          rw [e2b, e1b]
      · intro p hp1 hp2
        simp only [List.mem_map, Function.comp] at hp1
        obtain ⟨y, hy, hyeq⟩ := hp1
        obtain ⟨⟨u, v⟩, huv, hueq⟩ := List.mem_map.mp hp2
        have hmem := mem_of_combinaciones2 xs u v huv
        have heq2 : normalizar (u, v) = normalizar (x, y) := by rw [hueq, ← hyeq]
        rcases normalizar_eq_cases (u, v) (x, y) heq2 with ⟨e1, e2⟩ | ⟨e1, e2⟩
        · have e1b : u = x := e1
          exact hnd.1 (e1b ▸ hmem.1)
        · have e2b : v = x := e2
          exact hnd.1 (e2b ▸ hmem.2)

/-- When the mapped list is duplicate-free, exactly one element maps to any of
its members. -/
theorem countP_eq_one_of_nodup_map {α β : Type} [DecidableEq β] (l : List α)
    (f : α → β) (b : β) (hn : (l.map f).Nodup) (hb : b ∈ l.map f) :
    l.countP (fun a => decide (f a = b)) = 1 := by
  induction l with
  | nil => simp at hb
  | cons x xs ih =>
      rw [List.map_cons, List.nodup_cons] at hn
      rw [List.map_cons] at hb
      rcases List.mem_cons.mp hb with rfl | hb2
      · rw [List.countP_cons_of_pos _ _ (by simp)]
        have h0 : xs.countP (fun a => decide (f a = f x)) = 0 :=
          List.countP_eq_zero.mpr (fun a ha hfa =>
            hn.1 (List.mem_map.mpr ⟨a, ha, of_decide_eq_true hfa⟩))
        rw [h0]
      · have hxb : ¬(f x = b) := fun h => hn.1 (h ▸ hb2)
        rw [List.countP_cons_of_neg _ _ (by simpa using hxb)]
        exact ih hn.2 hb2

/-- Splitting a length into the matching and non-matching counts. -/
theorem countP_not_add {α : Type} (l : List α) (p : α → Bool) :
    l.countP (fun a => !(p a)) + l.countP p = l.length := by
  induction l with
  | nil => rfl
  | cons x xs ih =>
      by_cases h : p x = true <;>
        simp [List.countP_cons, h] <;> omega

/-- C2: `generar_fixture_zona` returns the 2-combinations of the zone's teams
minus the recorded Group pairings compared as unordered pairs: with nothing
recorded it returns all N(N-1)/2 combinations; with at most one team it
returns the empty list; with every combination recorded it returns the empty
list; and — last conjunct — when `db2` extends `db`'s recorded Group
pairings of the zone by exactly one pairing of two distinct zone teams not
recorded before (in either orientation), the pending list of `db2` is the
pending list of `db` minus exactly that one pair.  Only the duplicate-free
team names (the `UNIQUE` column constraint) are assumed globally. -/
theorem fixture_pendiente_correcto (db db2 : BaseDatos) (zona na nb : String)
    (hnd : (equiposZona db zona).Nodup) :
    (partidosJugadosZona db zona = [] →
      generarFixtureZona db zona = combinaciones2 (equiposZona db zona) ∧
      2 * (generarFixtureZona db zona).length =
        (equiposZona db zona).length * ((equiposZona db zona).length - 1)) ∧
    ((equiposZona db zona).length ≤ 1 → generarFixtureZona db zona = []) ∧
    ((combinaciones2 (equiposZona db zona)).all
        (fun par => decide (normalizar par ∈
          (partidosJugadosZona db zona).map normalizar)) = true →
      generarFixtureZona db zona = []) ∧
    (equiposZona db2 zona = equiposZona db zona →
      partidosJugadosZona db2 zona = partidosJugadosZona db zona ++ [(na, nb)] →
      na ∈ equiposZona db zona → nb ∈ equiposZona db zona → na ≠ nb →
      normalizar (na, nb) ∉ (partidosJugadosZona db zona).map normalizar →
      generarFixtureZona db2 zona =
        (generarFixtureZona db zona).filter
          (fun par => decide (normalizar par ≠ normalizar (na, nb))) ∧
      (generarFixtureZona db2 zona).length + 1 = (generarFixtureZona db zona).length) := by
  refine ⟨?_, ?_, ?_, ?_⟩
  · intro h0
    have hfix : generarFixtureZona db zona = combinaciones2 (equiposZona db zona) := by
      unfold generarFixtureZona
      rw [h0]
      apply List.filter_eq_self.mpr
      intro par _
      simp
    refine ⟨hfix, ?_⟩
    rw [hfix]
    exact combinaciones2_length _
  · intro h1
    rcases hT : equiposZona db zona with _ | ⟨x, xs⟩
    · unfold generarFixtureZona
      rw [hT]
      simp [combinaciones2]
    · rcases xs with _ | ⟨y, l⟩
      · unfold generarFixtureZona
        rw [hT]
        simp [combinaciones2]
      · rw [hT] at h1
        simp at h1
  · intro hall
    unfold generarFixtureZona
    apply List.filter_eq_nil_iff.mpr
    intro par hpar
    simp only [decide_eq_true_eq]
    intro hcontra
    exact hcontra (of_decide_eq_true (List.all_eq_true.mp hall par hpar))
  · intro heq hjug hna hnb hne hnuevo
    have hD : generarFixtureZona db2 zona =
        (generarFixtureZona db zona).filter
          (fun par => decide (normalizar par ≠ normalizar (na, nb))) := by
      unfold generarFixtureZona
      rw [heq, hjug, List.filter_filter]
      apply List.filter_congr
      intro par _
      by_cases hin : normalizar par ∈ (partidosJugadosZona db zona).map normalizar <;>
        by_cases heq2 : normalizar par = normalizar (na, nb) <;>
          simp [List.mem_append, hin, heq2]
    refine ⟨hD, ?_⟩
    have hcount : (generarFixtureZona db zona).countP
        (fun par => decide (normalizar par = normalizar (na, nb))) = 1 := by
      unfold generarFixtureZona
      rw [List.countP_filter]
      have hpoint : ∀ par ∈ combinaciones2 (equiposZona db zona),
          ((decide (normalizar par = normalizar (na, nb))) &&
            (decide (normalizar par ∉
              (partidosJugadosZona db zona).map normalizar))) = true ↔
          (decide (normalizar par = normalizar (na, nb))) = true := by
        intro par _
        constructor
        · intro h
          exact (Bool.and_eq_true_iff.mp h).1
        · intro h
          rw [h]
          have hnin : normalizar par ∉ (partidosJugadosZona db zona).map normalizar := by
            rw [of_decide_eq_true h]
            exact hnuevo
          simp [hnin]
      rw [List.countP_congr hpoint]
      apply countP_eq_one_of_nodup_map _ normalizar _ (nodup_normalizar_combinaciones2 _ hnd)
      rcases mem_combinaciones2 _ na nb hnd hna hnb hne with h | h
      · exact List.mem_map.mpr ⟨(na, nb), h, rfl⟩
      · exact List.mem_map.mpr ⟨(nb, na), h, normalizar_swap na nb⟩
    rw [hD, ← List.countP_eq_length_filter]
    have hnot : (generarFixtureZona db zona).countP
        (fun par => decide (normalizar par ≠ normalizar (na, nb))) =
        (generarFixtureZona db zona).countP
          (fun par => !(decide (normalizar par = normalizar (na, nb)))) :=
      List.countP_congr (by intro x _; simp)
    have hsplit := countP_not_add (generarFixtureZona db zona)
      (fun par => decide (normalizar par = normalizar (na, nb)))
    omega

/-- Three-team zone A with no recorded matches. -/
def baseFixtureCero : BaseDatos :=
  ⟨[⟨1, "P", "A"⟩, ⟨2, "Q", "A"⟩, ⟨3, "R", "A"⟩], []⟩

/-- The same zone after recording one Group match, with swapped home/away
orientation relative to the combinatorial order. -/
def baseFixtureUno : BaseDatos :=
  ⟨[⟨1, "P", "A"⟩, ⟨2, "Q", "A"⟩, ⟨3, "R", "A"⟩], [registrarPartido "Grupo" 2 1 2 0]⟩

/-- Witness for C2: with nothing recorded the pending list is the full
combination list, and recording one match removes exactly one pending pair. -/
theorem fixture_pendiente_testigo :
    generarFixtureZona baseFixtureCero "A" =
      combinaciones2 (equiposZona baseFixtureCero "A") ∧
    (generarFixtureZona baseFixtureUno "A").length + 1 =
      (generarFixtureZona baseFixtureCero "A").length :=
  ⟨((fixture_pendiente_correcto baseFixtureCero baseFixtureUno "A" "Q" "P"
      (by decide)).1 (by decide)).1,
   ((fixture_pendiente_correcto baseFixtureCero baseFixtureUno "A" "Q" "P"
      (by decide)).2.2.2 (by decide) (by decide) (by decide) (by decide) (by decide)
      (by decide)).2⟩

/-- A Group match recorded between teams of two different zones: team X of
zone A beats team Y of zone B, giving zone A a points sum of 3 with zero
Group matches between teams of zone A. -/
def baseCruzada : BaseDatos :=
  ⟨[⟨1, "X", "A"⟩, ⟨2, "Y", "B"⟩], [registrarPartido "Grupo" 1 2 1 0]⟩

/-- C7 counterexample: the points column of zone A sums to 3, yet there are
no Group-phase matches between teams of zone A at all (decisive or drawn), so
the claimed identity `sum = 3*decisive + 2*drawn` fails (3 ≠ 0). -/
theorem suma_puntos_contraejemplo :
    ((calcularTablaPosiciones baseCruzada "A").map (fun f => f.puntos)).sum = 3 ∧
    baseCruzada.partidos.countP
      (fun p => decide (partidoDeZona baseCruzada "A" p ∧
        p.golesLocal ≠ p.golesVisitante)) = 0 ∧
    baseCruzada.partidos.countP
      (fun p => decide (partidoDeZona baseCruzada "A" p ∧
        p.golesLocal = p.golesVisitante)) = 0 := by
  refine ⟨?_, ?_, ?_⟩ <;> decide

/-- The sum of an if-then-else indicator scaled by a constant. -/
theorem sum_map_ite_const {α : Type} (l : List α) (p : α → Bool) (k : Nat) :
    (l.map (fun a => if p a = true then k else 0)).sum = k * l.countP p := by
  induction l with
  | nil => simp
  | cons x xs ih =>
      simp only [List.map_cons, List.sum_cons, List.countP_cons, ih]
      by_cases h : p x = true
      · rw [if_pos h, if_pos h, Nat.mul_add, Nat.mul_one]
        omega
      · rw [if_neg h, if_neg h, Nat.add_zero]
        omega

/-- Counting by a double sum in the other order: summing per-element counts
over `E` equals summing per-element counts over `P`. -/
theorem sum_countP_swap {α β : Type} (E : List α) (P : List β) (q : α → β → Bool) :
    (E.map (fun e => P.countP (fun p => q e p))).sum =
    (P.map (fun p => E.countP (fun e => q e p))).sum := by
  induction P with
  | nil => simp
  | cons p P ih =>
      simp only [List.countP_cons, List.map_cons, List.sum_cons]
      rw [List.sum_map_add, ih]
      have hite := sum_map_ite_const E (fun e => q e p) 1
      omega

/-- Scaling by 3 moves out of a mapped sum. -/
theorem sum_map_mul_three {α : Type} (l : List α) (f : α → Nat) :
    (l.map (fun a => f a * 3)).sum = 3 * (l.map f).sum := by
  induction l with
  | nil => rfl
  | cons x xs ih =>
      simp only [List.map_cons, List.sum_cons, ih]
      omega

/-- Among the zone's team rows, exactly one carries a given id when that id
belongs to the zone, and none otherwise (ids are primary keys). -/
theorem countP_id_zona (db : BaseDatos) (zona : String) (w : Nat)
    (hids : (db.equipos.map (fun e => e.id)).Nodup) :
    (db.equipos.filter (fun e => decide (e.zona = zona))).countP
      (fun e => decide (e.id = w)) =
      if enZona db zona w then 1 else 0 := by
  by_cases hz : enZona db zona w
  · rw [if_pos hz]
    have hnd : ((db.equipos.filter (fun e => decide (e.zona = zona))).map
        (fun e => e.id)).Nodup :=
      ((List.filter_sublist db.equipos).map (fun e => e.id)).nodup hids
    obtain ⟨e, he, hid, hzona⟩ := hz
    have hmem : w ∈ (db.equipos.filter (fun e => decide (e.zona = zona))).map
        (fun e => e.id) :=
      List.mem_map.mpr ⟨e, List.mem_filter.mpr ⟨he, decide_eq_true hzona⟩, hid⟩
    exact countP_eq_one_of_nodup_map _ _ _ hnd hmem
  · rw [if_neg hz]
    apply List.countP_eq_zero.mpr
    intro e he hw
    obtain ⟨hmem, hzona⟩ := List.mem_filter.mp he
    exact hz ⟨e, hmem, of_decide_eq_true hw, of_decide_eq_true hzona⟩

/-- A disjunction of two disjoint predicates counts as the sum of the two
counts. -/
theorem countP_or_disjoint {α : Type} (l : List α) (p q : α → Bool)
    (h : ∀ a ∈ l, ¬(p a = true ∧ q a = true)) :
    l.countP (fun a => p a || q a) = l.countP p + l.countP q := by
  induction l with
  | nil => rfl
  | cons x xs ih =>
      have hx := h x (List.mem_cons_self x xs)
      have ih2 := ih (fun a ha => h a (List.mem_cons_of_mem x ha))
      by_cases hp : p x = true <;> by_cases hq : q x = true
      · exact absurd ⟨hp, hq⟩ hx
      · simp [List.countP_cons, hp, hq, ih2]
        omega
      · simp [List.countP_cons, hp, hq, ih2]
        omega
      · simp [List.countP_cons, hp, hq, ih2]

/-- C7 amended: the points column of a zone sums to 3 times the decisive plus
2 times the drawn Group matches between (distinct) teams of the zone,
provided ids are duplicate-free, stored winners equal the score-derived
winners, and every Group match touching the zone stays inside the zone. -/
theorem suma_puntos_zona (db : BaseDatos) (zona : String)
    (hids : (db.equipos.map (fun e => e.id)).Nodup)
    (hgan : ∀ p ∈ db.partidos, p.ganadorId = ganadorCalculado p)
    (hzon : ∀ p ∈ db.partidos, p.fase = "Grupo" →
      enZona db zona p.localId ∨ enZona db zona p.visitanteId →
      partidoDeZona db zona p) :
    ((calcularTablaPosiciones db zona).map (fun f => f.puntos)).sum =
      3 * db.partidos.countP
        (fun p => decide (partidoDeZona db zona p ∧ p.golesLocal ≠ p.golesVisitante)) +
      2 * db.partidos.countP
        (fun p => decide (partidoDeZona db zona p ∧ p.golesLocal = p.golesVisitante)) := by
  have hperm : (calcularTablaPosiciones db zona).Perm
      ((db.equipos.filter (fun e => decide (e.zona = zona))).map (statsEquipo db)) := by
    unfold calcularTablaPosiciones
    exact List.perm_insertionSort _ _
  have h1 := (hperm.map (fun f => f.puntos)).sum_eq
  rw [h1, List.map_map]
  have hpg_p : ∀ p ∈ db.partidos,
      (db.equipos.filter (fun e => decide (e.zona = zona))).countP
        (fun e => decide (p.ganadorId = some e.id ∧ p.fase = "Grupo")) =
      if decide (partidoDeZona db zona p ∧ p.golesLocal ≠ p.golesVisitante) = true
        then 1 else 0 := by
    intro p hp
    by_cases hfase : p.fase = "Grupo"
    · by_cases hdraw : p.golesLocal = p.golesVisitante
      · have hnone : p.ganadorId = none := by
          rw [hgan p hp]
          unfold ganadorCalculado
          rw [hdraw]
          simp
        rw [List.countP_eq_zero.mpr (by
          intro e he hpred
          have := of_decide_eq_true hpred
          rw [hnone] at this
          exact Option.noConfusion this.1)]
        rw [if_neg (by simp [hdraw])]
      · have key : ∀ w, p.ganadorId = some w → (w = p.localId ∨ w = p.visitanteId) →
            (db.equipos.filter (fun e => decide (e.zona = zona))).countP
              (fun e => decide (p.ganadorId = some e.id ∧ p.fase = "Grupo")) =
            if decide (partidoDeZona db zona p ∧ p.golesLocal ≠ p.golesVisitante) = true
              then 1 else 0 := by
          intro w hw hwor
          have hcong : (db.equipos.filter (fun e => decide (e.zona = zona))).countP
              (fun e => decide (p.ganadorId = some e.id ∧ p.fase = "Grupo")) =
              (db.equipos.filter (fun e => decide (e.zona = zona))).countP
                (fun e => decide (e.id = w)) := by
            apply List.countP_congr
            intro e he
            simp [hw, hfase, eq_comm]
          rw [hcong, countP_id_zona db zona w hids]
          by_cases hz : enZona db zona w
          · rw [if_pos hz]
            have hdz : partidoDeZona db zona p := by
              apply hzon p hp hfase
              rcases hwor with rfl | rfl
              · exact Or.inl hz
              · exact Or.inr hz
            rw [if_pos (decide_eq_true ⟨hdz, hdraw⟩)]
          · rw [if_neg hz]
            have hndz : ¬partidoDeZona db zona p := by
              intro hdz
              rcases hwor with rfl | rfl
              · exact hz hdz.2.1
              · exact hz hdz.2.2.1
            rw [if_neg (by simp [hndz])]
        have hw : p.ganadorId = some p.localId ∨ p.ganadorId = some p.visitanteId := by
          rw [hgan p hp]
          unfold ganadorCalculado
          rcases Nat.lt_or_ge p.golesVisitante p.golesLocal with h | h
          · left
            rw [if_pos h]
          · right
            rw [if_neg (by omega), if_pos (by omega)]
        rcases hw with hw | hw
        · exact key _ hw (Or.inl rfl)
        · exact key _ hw (Or.inr rfl)
    · rw [List.countP_eq_zero.mpr (by
        intro e he hpred
        exact hfase (of_decide_eq_true hpred).2)]
      rw [if_neg (by simp [partidoDeZona, hfase])]
  have hpe_p : ∀ p ∈ db.partidos,
      (db.equipos.filter (fun e => decide (e.zona = zona))).countP
        (fun e => decide ((p.localId = e.id ∨ p.visitanteId = e.id) ∧
          p.golesLocal = p.golesVisitante ∧ p.fase = "Grupo")) =
      if decide (partidoDeZona db zona p ∧ p.golesLocal = p.golesVisitante) = true
        then 2 else 0 := by
    intro p hp
    by_cases hfase : p.fase = "Grupo"
    · by_cases hdraw : p.golesLocal = p.golesVisitante
      · have hcong : (db.equipos.filter (fun e => decide (e.zona = zona))).countP
            (fun e => decide ((p.localId = e.id ∨ p.visitanteId = e.id) ∧
              p.golesLocal = p.golesVisitante ∧ p.fase = "Grupo")) =
            (db.equipos.filter (fun e => decide (e.zona = zona))).countP
              (fun e => decide (e.id = p.localId) || decide (e.id = p.visitanteId)) := by
          apply List.countP_congr
          intro e he
          constructor
          · intro hpre
            rcases (of_decide_eq_true hpre).1 with h | h
            · exact Bool.or_eq_true_iff.mpr (Or.inl (decide_eq_true h.symm))
            · exact Bool.or_eq_true_iff.mpr (Or.inr (decide_eq_true h.symm))
          · intro hpre
            rcases Bool.or_eq_true_iff.mp hpre with h | h
            · exact decide_eq_true ⟨Or.inl (of_decide_eq_true h).symm, hdraw, hfase⟩
            · exact decide_eq_true ⟨Or.inr (of_decide_eq_true h).symm, hdraw, hfase⟩
        rw [hcong]
        by_cases hz : enZona db zona p.localId ∨ enZona db zona p.visitanteId
        · have hdz := hzon p hp hfase hz
          rw [countP_or_disjoint _ _ _ (by
            rintro e he ⟨hl, hv⟩
            have hl2 : e.id = p.localId := of_decide_eq_true hl
            have hv2 : e.id = p.visitanteId := of_decide_eq_true hv
            exact hdz.2.2.2 (hl2 ▸ hv2))]
          rw [countP_id_zona db zona p.localId hids,
            countP_id_zona db zona p.visitanteId hids,
            if_pos hdz.2.1, if_pos hdz.2.2.1,
            if_pos (decide_eq_true ⟨hdz, hdraw⟩)]
        · push_neg at hz
          rw [List.countP_eq_zero.mpr (by
            intro e he hpred
            obtain ⟨hmem, hzona⟩ := List.mem_filter.mp he
            rcases Bool.or_eq_true_iff.mp hpred with hl | hv
            · exact hz.1 ⟨e, hmem, of_decide_eq_true hl, of_decide_eq_true hzona⟩
            · exact hz.2 ⟨e, hmem, of_decide_eq_true hv, of_decide_eq_true hzona⟩)]
          rw [if_neg (by
            simp only [decide_eq_true_eq, not_and]
            intro hdz
            exact absurd (Or.inl hdz.2.1) (by
              push_neg
              exact hz))]
      · rw [List.countP_eq_zero.mpr (by
          intro e he hpred
          exact hdraw (of_decide_eq_true hpred).2.1)]
        rw [if_neg (by simp [hdraw])]
    · rw [List.countP_eq_zero.mpr (by
        intro e he hpred
        exact hfase (of_decide_eq_true hpred).2.2)]
      rw [if_neg (by simp [partidoDeZona, hfase])]
  have hstats : ((db.equipos.filter (fun e => decide (e.zona = zona))).map
      ((fun f => f.puntos) ∘ statsEquipo db)).sum =
      ((db.equipos.filter (fun e => decide (e.zona = zona))).map (fun e =>
        db.partidos.countP
          (fun p => decide (p.ganadorId = some e.id ∧ p.fase = "Grupo")) * 3 +
        db.partidos.countP
          (fun p => decide ((p.localId = e.id ∨ p.visitanteId = e.id) ∧
            p.golesLocal = p.golesVisitante ∧ p.fase = "Grupo")))).sum := by
    congr 1
    apply List.map_congr_left
    intro e he
    simp [Function.comp, statsEquipo, List.countP_eq_length_filter]
  have hswap1 : (List.map (fun e => List.countP
        (fun p => decide (p.ganadorId = some e.id ∧ p.fase = "Grupo")) db.partidos)
        (List.filter (fun e => decide (e.zona = zona)) db.equipos)).sum =
      (List.map (fun p => List.countP
        (fun e => decide (p.ganadorId = some e.id ∧ p.fase = "Grupo"))
        (List.filter (fun e => decide (e.zona = zona)) db.equipos)) db.partidos).sum :=
    sum_countP_swap _ _ _
  have hswap2 : (List.map (fun e => List.countP
        (fun p => decide ((p.localId = e.id ∨ p.visitanteId = e.id) ∧
          p.golesLocal = p.golesVisitante ∧ p.fase = "Grupo")) db.partidos)
        (List.filter (fun e => decide (e.zona = zona)) db.equipos)).sum =
      (List.map (fun p => List.countP
        (fun e => decide ((p.localId = e.id ∨ p.visitanteId = e.id) ∧
          p.golesLocal = p.golesVisitante ∧ p.fase = "Grupo"))
        (List.filter (fun e => decide (e.zona = zona)) db.equipos)) db.partidos).sum :=
    sum_countP_swap _ _ _
  rw [hstats, List.sum_map_add, sum_map_mul_three, hswap1, hswap2]
  rw [List.map_congr_left hpg_p, List.map_congr_left hpe_p]
  rw [sum_map_ite_const db.partidos _ 1, sum_map_ite_const db.partidos _ 2]
  omega

/-- Three teams of zone A, one decisive and one drawn Group match. -/
def baseGrupoA : BaseDatos :=
  ⟨[⟨1, "X", "A"⟩, ⟨2, "Y", "A"⟩, ⟨3, "Z", "A"⟩],
   [registrarPartido "Grupo" 1 2 2 1, registrarPartido "Grupo" 1 3 1 1]⟩

/-- Witness for the amended C7: points sum 5 = 3 x 1 decisive + 2 x 1 drawn. -/
theorem suma_puntos_zona_testigo :
    ((calcularTablaPosiciones baseGrupoA "A").map (fun f => f.puntos)).sum =
      3 * baseGrupoA.partidos.countP
        (fun p => decide (partidoDeZona baseGrupoA "A" p ∧
          p.golesLocal ≠ p.golesVisitante)) +
      2 * baseGrupoA.partidos.countP
        (fun p => decide (partidoDeZona baseGrupoA "A" p ∧
          p.golesLocal = p.golesVisitante)) :=
  suma_puntos_zona baseGrupoA "A" (by decide) (by decide) (by decide)

end Torneo
